import Mathlib

/-!
Verification of the connection-consistency subsystem of the gaphor repository.

This file gives a shallow embedding, in Lean 4, of the two adapter modules

  * `gaphor/adapters/actions/flowconnect.py`  (flow edges and the
    fork/join - decision/merge combinator), and
  * `gaphor/adapters/components/connectorconnect.py` (assembly connectors
    and the interface folding state machine),

and proves (or refutes) the frozen claims about them.

Conventions of the embedding:

  * semantic elements are identified by natural-number ids handed out by a
    `nextId` counter, modelling the element factory;
  * the UML collections `incoming` / `outgoing` of an activity node are
    derived from the list of flow edges, in list (creation) order, which
    matches the append-order semantics of the Python metamodel collections;
  * `swap_element` reclassifies a node in place (same id, new class), and
    `unlink` removes an element and cascades removal of references to it:
    a flow whose source or target node is unlinked keeps its id but loses
    that endpoint reference (endpoints are therefore `Option Nat`);
  * Python attribute truthiness (`element.combined`, `line.subject`) is
    modelled with `Option`.
-/

namespace Gaphor

/-- Kind of a flow edge: `UML.ControlFlow` or `UML.ObjectFlow`. -/
inductive FlowKind where
  | control
  | object
  deriving DecidableEq

/-- Class of an activity-graph semantic node, as used by the flow adapters. -/
inductive NodeClass where
  | initial
  | final
  | action
  | objectNode
  | fork
  | join
  | decision
  | merge
  deriving DecidableEq

/-- A flow edge (`UML.ControlFlow` / `UML.ObjectFlow`): one source and one
target end.  An endpoint becomes `none` when the node it referenced is
unlinked (cascading removal of references). -/
structure FlowEdge where
  id : Nat
  src : Option Nat
  tgt : Option Nat
  kind : FlowKind
  deriving DecidableEq

/-- State visible to the fork/decision adapters: the semantic activity graph
(nodes with their class, flow edges), the adapter element's `subject` node,
the visual item's `combined` companion reference, and the element-factory id
counter. -/
structure FJState where
  nodes : List (Nat × NodeClass)
  flows : List FlowEdge
  subject : Nat
  combined : Option Nat
  nextId : Nat
  deriving DecidableEq

/-- The `incoming` collection of node `n`: flows whose target is `n`. -/
def incomingF (s : FJState) (n : Nat) : List FlowEdge :=
  s.flows.filter (fun f => f.tgt == some n)

/-- The `outgoing` collection of node `n`: flows whose source is `n`. -/
def outgoingF (s : FJState) (n : Nat) : List FlowEdge :=
  s.flows.filter (fun f => f.src == some n)

/-- Class of node `n` in state `s` (first association-list entry). -/
def kindOf (s : FJState) (n : Nat) : Option NodeClass :=
  s.nodes.lookup n

/-- The element factory's `swap_element(element, newClass)`: reclassify a node
in place, preserving its id and every reference to it. -/
def swap_element (s : FJState) (n : Nat) (k : NodeClass) : FJState :=
  { s with nodes := s.nodes.map (fun p => if p.1 = n then (n, k) else p) }

/-- The element factory's `unlink` on a flow edge: the element is destroyed
and disappears from the graph. -/
def unlinkFlow (s : FJState) (fid : Nat) : FJState :=
  { s with flows := s.flows.filter (fun f => ¬ f.id == fid) }

/-- The element factory's `unlink` on a node: the element is destroyed and
every reference to it is removed, so flows that pointed at it lose that
endpoint (but are themselves not destroyed). -/
def unlinkNode (s : FJState) (n : Nat) : FJState :=
  { s with
    nodes := s.nodes.filter (fun p => ¬ p.1 == n),
    flows := s.flows.map (fun f =>
      { f with
        src := if f.src == some n then none else f.src,
        tgt := if f.tgt == some n then none else f.tgt }) }

/-- The `fork_node_class` / `join_node_class` class attributes of a
`FlowForkDecisionNodeConnect` subclass. -/
structure AdapterClasses where
  fork : NodeClass
  join : NodeClass
  deriving DecidableEq

/-- `FlowForkNodeConnect`: fork_node_class=UML.ForkNode, join_node_class=UML.JoinNode. -/
def forkNodeAdapter : AdapterClasses := ⟨NodeClass.fork, NodeClass.join⟩

/-- `FlowDecisionNodeConnect`: fork_node_class=UML.DecisionNode, join_node_class=UML.MergeNode. -/
def decisionNodeAdapter : AdapterClasses := ⟨NodeClass.decision, NodeClass.merge⟩

/-- Body of the edge-moving loops of `combine_nodes` and `decombine_nodes`:
`for flow in ...: flow.source = <to>` applied to the flows sourced at `from_`. -/
def moveSrc (from_ to_ : Nat) (f : FlowEdge) : FlowEdge :=
  if f.src == some from_ then { f with src := some to_ } else f

/-- `FlowForkDecisionNodeConnect.combine_nodes` (flowconnect.py lines 83-115),
translated statement by statement.  `element.request_update()` is a pure
visual-refresh request and has no effect on the semantic state. -/
def combine_nodes (ac : AdapterClasses) (s : FJState) : FJState :=
  let subj := s.subject
  if 1 < (incomingF s subj).length ∧ (outgoingF s subj).length < 2 then
    swap_element s subj ac.join
  else if (incomingF s subj).length < 2 ∧ 1 < (outgoingF s subj).length then
    swap_element s subj ac.fork
  else if s.combined = none ∧ 1 < (incomingF s subj).length ∧ 1 < (outgoingF s subj).length then
    -- determine flow class from the incoming edges of the join node
    let flowClass := if (incomingF s subj).any (fun f => f.kind == FlowKind.object)
                     then FlowKind.object else FlowKind.control
    let s1 := swap_element s subj ac.join
    -- fork_node = self.element_factory.create(fork_node_class)
    let forkId := s1.nextId
    let s2 : FJState := { s1 with nodes := s1.nodes ++ [(forkId, ac.fork)], nextId := s1.nextId + 1 }
    -- for flow in list(join_node.outgoing): flow.source = fork_node
    let s3 : FJState := { s2 with flows := s2.flows.map (moveSrc subj forkId) }
    -- flow = self.element_factory.create(flow_class); flow.source = join; flow.target = fork
    let linkId := s3.nextId
    let link : FlowEdge := { id := linkId, src := some subj, tgt := some forkId, kind := flowClass }
    let s4 : FJState := { s3 with flows := s3.flows ++ [link], nextId := s3.nextId + 1 }
    -- element.combined = fork_node
    { s4 with combined := some forkId }
  else
    s

/-- `FlowForkDecisionNodeConnect.decombine_nodes` (flowconnect.py lines
117-144), translated statement by statement, including the Python scoping of
the loop variable: the statement `flow.unlink()` on line 137 runs after the
loop `for flow in list(fork_node.outgoing): flow.source = join_node`, so when
that loop is non-empty the name `flow` is no longer bound to
`join_node.outgoing[0]` but to the last element the loop iterated over.
States on which the source raises (`outgoing[0]` on an empty collection, or
one of the three `assert` statements failing) are returned unchanged; the
claims only run the function on states where the source does not raise. -/
def decombine_nodes (ac : AdapterClasses) (s : FJState) : FJState :=
  match s.combined with
  | none => s
  | some forkId =>
    let join := s.subject
    match (outgoingF s join).head? with
    | none => s
    | some flow0 =>
      if flow0.tgt = some forkId ∧ kindOf s join = some ac.join
         ∧ kindOf s forkId = some ac.fork then
        if (incomingF s join).length < 2 ∨ (outgoingF s forkId).length < 2 then
          let moved := outgoingF s forkId
          let s1 : FJState := { s with flows := s.flows.map (moveSrc forkId join) }
          -- `flow.unlink()`: `flow` is the last flow iterated by the move loop
          -- when that loop ran at least once, and `outgoing[0]` otherwise
          let unlinkedId := ((moved.getLast?).map FlowEdge.id).getD flow0.id
          let s2 := unlinkFlow s1 unlinkedId
          let s3 := unlinkNode s2 forkId
          let s4 : FJState := if 1 < (outgoingF s3 join).length then swap_element s3 join ac.fork else s3
          { s4 with combined := none }
        else
          s
      else
        s

/-- Concrete activity graph used to exercise `combine_nodes` and
`decombine_nodes`: node 0 (the subject of a fork item) with two incoming
control flows (ids 5, 6 from actions 1, 2) and two outgoing control flows
(ids 7, 8 to actions 3, 4). -/
def twoInTwoOut : FJState :=
  { nodes := [(0, NodeClass.fork), (1, NodeClass.action), (2, NodeClass.action),
              (3, NodeClass.action), (4, NodeClass.action)],
    flows := [{ id := 5, src := some 1, tgt := some 0, kind := FlowKind.control },
              { id := 6, src := some 2, tgt := some 0, kind := FlowKind.control },
              { id := 7, src := some 0, tgt := some 3, kind := FlowKind.control },
              { id := 8, src := some 0, tgt := some 4, kind := FlowKind.control }],
    subject := 0,
    combined := none,
    nextId := 9 }

/-- The combined pair obtained from `twoInTwoOut`: node 0 swapped to a
JoinNode, new ForkNode 9 holding the outgoing flows 7 and 8, and the linking
control flow 10 from 0 to 9. -/
def combinedPair : FJState := combine_nodes forkNodeAdapter twoInTwoOut

/-- `combinedPair` after the base disconnect of flow 8 removed that
relationship (the state `decombine_nodes` then runs on). -/
def afterDrop8 : FJState := unlinkFlow combinedPair 8

/-- Wellformedness of a fork/join adapter state: every element id handed out
so far is below the factory counter, and the adapter element has a subject
node in the graph. -/
@[reducible] def combineWf (s : FJState) : Prop :=
  s.subject < s.nextId
  ∧ (s.nodes.lookup s.subject).isSome = true
  ∧ (∀ p ∈ s.nodes, p.1 < s.nextId)
  ∧ (∀ f ∈ s.flows, f.id < s.nextId
      ∧ (∀ n, f.src = some n → n < s.nextId)
      ∧ (∀ n, f.tgt = some n → n < s.nextId))

/-- Observable steps of a flow-edge disconnect, used to settle the ordering
claim about `disconnect_subject`. -/
inductive DEvent where
  | baseRemoval
  | decombineCall
  | clearWeakRef
  deriving DecidableEq

/-- `FlowConnect.disconnect_subject` (flowconnect.py lines 51-57) as the
sequence of observable steps it performs: first
`super(FlowConnect, self).disconnect_subject(handle)` — the base removal of
the relationship subject — and then, when the opposite handle is attached to
a fork/decision item (in particular whenever that item holds a combined
companion), the `decombine_nodes` call on that item's adapter. -/
def flowConnect_disconnect_subject (oppositeIsForkDecision : Bool) : List DEvent :=
  [DEvent.baseRemoval] ++ (if oppositeIsForkDecision then [DEvent.decombineCall] else [])

/-- `FlowForkDecisionNodeConnect.disconnect_subject` (lines 159-162): the
inherited behaviour, then `decombine_nodes` on the element itself when it has
a combined companion. -/
def flowForkDecision_disconnect_subject (oppositeIsForkDecision selfCombined : Bool) :
    List DEvent :=
  flowConnect_disconnect_subject oppositeIsForkDecision
    ++ (if selfCombined then [DEvent.decombineCall] else [])

/-- Modelled from the spec: the generic adapter `disconnect` wrapping
`disconnect_subject` is not part of the sources under verification; per the
spec it performs the subject disconnection first and clears the handle's weak
reference to the opposite item afterwards. -/
def flow_disconnect (oppositeIsForkDecision selfCombined : Bool) : List DEvent :=
  flowForkDecision_disconnect_subject oppositeIsForkDecision selfCombined
    ++ [DEvent.clearWeakRef]

/-- A connector edge attached to the interface item under consideration:
its canvas id, the id of the component subject at its other end, and the
`subject` / `end` references set by `create_uml`. -/
structure AEdge where
  id : Nat
  comp : Nat
  subject : Option Nat
  endId : Option Nat
  deriving DecidableEq

/-- A `UML.ConnectorEnd`: its id, its role (an interface subject id) and the
`partWithPort` port element id. -/
structure UEnd where
  id : Nat
  role : Nat
  partWithPort : Nat
  deriving DecidableEq

/-- A `UML.Connector`: its id, its `kind` tag and the ordered collection of
its connector-end ids. -/
structure UConnector where
  id : Nat
  kind : String
  ends : List Nat
  deriving DecidableEq

/-- State of an interface item's assembly neighbourhood: the subject of the
interface, the connector edges currently attached to it (in canvas order,
`canvas.get_connected_items`), the semantic connectors, connector-ends and
component-owned ports created for it, and the element-factory counter. -/
structure AsmState where
  ifaceSubject : Nat
  attached : List AEdge
  connectors : List UConnector
  uends : List UEnd
  ownedPorts : List (Nat × Nat)
  nextId : Nat
  deriving DecidableEq

/-- `ConnectorConnectBase.create_uml` (connectorconnect.py lines 47-70):
sets `connector.subject = assembly`, creates a `ConnectorEnd` with
`role = iface` and a freshly created `Port` as `partWithPort`, appends the
end to the assembly's `end` collection and the port to the component's
`ownedPort` collection. -/
def create_uml (s : AsmState) (edgeId compId assemblyId : Nat) : AsmState :=
  let endId := s.nextId
  let portId := s.nextId + 1
  let newEnd : UEnd := { id := endId, role := s.ifaceSubject, partWithPort := portId }
  { s with
    attached := s.attached.map (fun e =>
      if e.id = edgeId then { e with subject := some assemblyId, endId := some endId } else e),
    uends := s.uends ++ [newEnd],
    connectors := s.connectors.map (fun c =>
      if c.id = assemblyId then { c with ends := c.ends ++ [endId] } else c),
    ownedPorts := s.ownedPorts ++ [(compId, portId)],
    nextId := s.nextId + 2 }

/-- `ConnectorConnectBase.drop_uml` (lines 73-87): unlinks the port owned by
the component for this attachment (`component.subject.ownedPort.unlink()`),
unlinks the edge's connector-end (which also removes it from the assembly's
`end` collection by cascade) and clears the edge's `end` and `subject`
references. -/
def drop_uml (s : AsmState) (edgeId compId : Nat) : AsmState :=
  let endOf := (s.attached.find? (fun e => e.id == edgeId)).bind AEdge.endId
  { s with
    ownedPorts := s.ownedPorts.filter (fun p => p.1 != compId),
    uends := s.uends.filter (fun u => some u.id != endOf),
    connectors := s.connectors.map (fun c =>
      { c with ends := c.ends.filter (fun eid => some eid != endOf) }),
    attached := s.attached.map (fun e =>
      if e.id = edgeId then { e with endId := none, subject := none } else e) }

/-- `ConnectorConnectBase.connect` (lines 121-152), for a connector edge with
both ends attached, one on a component (subject id `compId`) and one on the
interface item.  The physical attachment performed by the base connect is the
append to the canvas's connected-items list; the grouping logic then runs on
the full `connected` list, creating the shared assembly connector on the
second attachment (one `create_uml` per connected edge) and reusing the
first-found existing one afterwards (one `create_uml` for the new line). -/
def newEdge (edgeId compId : Nat) : AEdge :=
  { id := edgeId, comp := compId, subject := none, endId := none }

def asm_connect (s : AsmState) (edgeId compId : Nat) : AsmState :=
  let s0 : AsmState :=
    { s with attached := s.attached ++ [newEdge edgeId compId] }
  let connected := s0.attached
  if 1 < connected.length then
    match connected.find? (fun e => e.subject.isSome) with
    | some conn =>
      match conn.subject with
      | some asmId => create_uml s0 edgeId compId asmId
      | none => s0
    | none =>
      let asmId := s0.nextId
      let s1 : AsmState :=
        { s0 with
          connectors := s0.connectors ++ [{ id := asmId, kind := "assembly", ends := [] }],
          nextId := s0.nextId + 1 }
      connected.foldl (fun acc e => create_uml acc e.id e.comp asmId) s1
  else
    s0

/-- `ConnectorConnectBase.disconnect` (lines 155-175) followed by the
clearing of the handle (the physical detachment), which the spec places
after the adapter's cleanup.  With `line.subject` unset the adapter returns
immediately; with exactly two attached edges every attached edge's UML is
dropped and the shared connector unlinked; with more, only this edge's end
is dropped. -/
def asm_disconnect (s : AsmState) (edgeId : Nat) : AsmState :=
  let sAdapter : AsmState :=
    match s.attached.find? (fun e => e.id == edgeId) with
    | none => s
    | some line =>
      if line.subject = none then s
      else
        let connected := s.attached
        if connected.length = 2 then
          let s1 := connected.foldl (fun acc e => drop_uml acc e.id e.comp) s
          { s1 with connectors := s1.connectors.filter (fun c => some c.id != line.subject) }
        else
          drop_uml s edgeId line.comp
  { sAdapter with attached := sAdapter.attached.filter (fun e => e.id != edgeId) }

/-- A gesture against one interface item: attach a new connector edge whose
other end is on component `compId`, or detach an attached edge. -/
inductive AsmOp where
  | connect (edgeId compId : Nat)
  | disconnect (edgeId : Nat)
  deriving DecidableEq

/-- One gesture. -/
def asm_step (s : AsmState) : AsmOp → AsmState
  | AsmOp.connect e c => asm_connect s e c
  | AsmOp.disconnect e => asm_disconnect s e

/-- Validity of a gesture: a newly attached edge carries a canvas id not
already attached (canvas items are distinct). -/
@[reducible] def validOp (s : AsmState) : AsmOp → Prop
  | AsmOp.connect e _ => ∀ a ∈ s.attached, a.id ≠ e
  | AsmOp.disconnect _ => True

/-- The empty neighbourhood of an interface item. -/
def asm_init (ifc n0 : Nat) : AsmState :=
  { ifaceSubject := ifc, attached := [], connectors := [], uends := [],
    ownedPorts := [], nextId := n0 }

/-- States reachable by gestures from an empty interface neighbourhood. -/
inductive AsmReach : AsmState → Prop where
  | init (ifc n0 : Nat) : AsmReach (asm_init ifc n0)
  | step (s : AsmState) (op : AsmOp) : AsmReach s → validOp s op → AsmReach (asm_step s op)

/-- Relation between an attached edge and "its" connector-end once the
interface is grouped under assembly connector `Aid`. -/
def pairR (Aid ifc : Nat) (e : AEdge) (u : UEnd) : Prop :=
  e.subject = some Aid ∧ e.endId = some u.id ∧ u.role = ifc

/-- The interface neighbourhood is grouped under the single shared assembly
connector `A`: every attached edge references `A` and carries exactly one
connector-end, and the ends of `A` are exactly those, in order. -/
def Grouped (s : AsmState) (A : UConnector) : Prop :=
  s.connectors = [A] ∧ A.kind = "assembly" ∧ A.id < s.nextId
  ∧ A.ends = s.uends.map UEnd.id
  ∧ List.Forall₂ (pairR A.id s.ifaceSubject) s.attached s.uends

/-- Inductive invariant of the assembly neighbourhood: ids are distinct and
below the factory counter, and either at most one edge is attached and no
semantic assembly object exists, or at least two are attached and the state
is grouped under exactly one shared assembly connector. -/
def GoodAsm (s : AsmState) : Prop :=
  (s.attached.map AEdge.id).Nodup
  ∧ (s.uends.map UEnd.id).Nodup
  ∧ (∀ u ∈ s.uends, u.id < s.nextId)
  ∧ (∀ p ∈ s.ownedPorts, p.2 < s.nextId)
  ∧ ((s.attached.length ≤ 1 ∧ s.connectors = [] ∧ s.uends = []
        ∧ (∀ e ∈ s.attached, e.subject = none ∧ e.endId = none))
     ∨ (2 ≤ s.attached.length ∧ ∃ A, Grouped s A))

/-- Concrete gesture sequence against interface subject 100: edge 1 from
component 10, then edge 2 from component 20, then edge 3 from component 30. -/
def asmT1 : AsmState := asm_step (asm_init 100 0) (AsmOp.connect 1 10)

/-- Two edges attached (grouped under the shared assembly connector). -/
def asmT2 : AsmState := asm_step asmT1 (AsmOp.connect 2 20)

/-- Three edges attached. -/
def asmT3 : AsmState := asm_step asmT2 (AsmOp.connect 3 30)

/-- The first attached edge of `asmT2`, as created by the model. -/
def asmE1 : AEdge := { id := 1, comp := 10, subject := some 0, endId := some 1 }

/-- One of the four ports of an interface item: the `provided` / `required` /
`connectable` flags read and written by the folding logic, and the port's
angle (read for the interface's display angle). -/
structure IfPort where
  provided : Bool
  required : Bool
  connectable : Bool
  angle : Nat
  deriving DecidableEq

/-- The `folded` display states of an interface item. -/
inductive FoldedState where
  | fNone
  | fProvided
  | fRequired
  | fAssembly
  deriving DecidableEq

/-- An interface item as seen by `InterfaceConnectorConnect`: its `folded`
display state, its four ports (by index), its display angle and the id of
its subject interface. -/
structure IfaceState where
  folded : FoldedState
  ports : Fin 4 → IfPort
  angle : Nat
  subject : Nat

/-- The subject of a component item: the sets of interface subjects it
provides and requires. -/
structure CompSubj where
  provided : List Nat
  required : List Nat
  deriving DecidableEq

/-- Condition under which the provided/required assignment is swapped:
`component is not None and iface.subject in component.subject.required`. -/
def swapCond (component : Option CompSubj) (subj : Nat) : Bool :=
  match component with
  | some c => c.required.contains subj
  | none => false

/-- `pport.provided = True` on a port. -/
def setProvided (p : IfPort) : IfPort := { p with provided := true }

/-- `rport.required = True` on a port. -/
def setRequired (p : IfPort) : IfPort := { p with required := true }

/-- `port.connectable = False` on a port. -/
def setNonConnectable (p : IfPort) : IfPort := { p with connectable := false }

/-- Reset of a port on unfolding: connectable, role-less. -/
def resetPort (p : IfPort) : IfPort :=
  { p with connectable := true, provided := false, required := false }

/-- `InterfaceConnectorConnect.connect` (connectorconnect.py lines 217-239),
its folding part: the interface is put in assembly display, and when the
attachment port `idx` has no declared role yet, the attachment port and the
port two positions away receive the provided/required roles — swapped when
the interface's subject is in the connecting component's required set — and
the other two ports are made non-connectable.  (The semantic grouping done
by `super().connect` is the separately modelled `asm_connect`.) -/
def iface_connect (s : IfaceState) (idx : Fin 4) (component : Option CompSubj) : IfaceState :=
  let s := { s with folded := FoldedState.fAssembly }
  let port := s.ports idx
  if ¬ port.provided ∧ ¬ port.required then
    let swap : Bool := swapCond component s.subject
    let pIdx : Fin 4 := if swap then idx + 2 else idx
    let rIdx : Fin 4 := if swap then idx else idx + 2
    let s1 := { s with ports := Function.update s.ports pIdx (setProvided (s.ports pIdx)) }
    let s2 := { s1 with ports := Function.update s1.ports rIdx (setRequired (s1.ports rIdx)) }
    let s3 := { s2 with angle := (s2.ports rIdx).angle }
    let s4 := { s3 with ports := Function.update s3.ports (idx + 1) (setNonConnectable (s3.ports (idx + 1))) }
    { s4 with ports := Function.update s4.ports (idx + 3) (setNonConnectable (s4.ports (idx + 3))) }
  else
    s

/-- `InterfaceConnectorConnect.disconnect` (lines 242-253): when the edge
being disconnected is the last attached connector
(`len(get_connected_items(iface)) == 1`), the interface reverts to the plain
folded-provided display and all four ports become connectable again with
both role flags cleared. -/
def iface_disconnect (s : IfaceState) (connectedCount : Nat) : IfaceState :=
  if connectedCount = 1 then
    { s with folded := FoldedState.fProvided,
             angle := (s.ports 0).angle,
             ports := fun i => resetPort (s.ports i) }
  else
    s

/-- A freshly folded interface: role-less connectable ports. -/
def pristineIface : IfaceState :=
  { folded := FoldedState.fProvided,
    ports := fun i => { provided := false, required := false, connectable := true,
                        angle := i.val * 90 },
    angle := 0, subject := 5 }

/-- The interface after its first connector attached through port 0: assembly
display, port 0 provided, port 2 required, ports 1 and 3 non-connectable. -/
def foldedIface : IfaceState := iface_connect pristineIface 0 none

/-- A diagram item that a connector edge endpoint can resolve to: a
component item (with its component subject) or an interface item (with the
id of its interface subject). -/
inductive GItem where
  | comp (subj : CompSubj)
  | iface (subj : Nat)
  deriving DecidableEq

/-- `isinstance(x, items.ComponentItem)` on an optional item. -/
def isCompI : Option GItem → Bool
  | some (GItem.comp _) => true
  | _ => false

/-- `isinstance(x, items.InterfaceItem)` on an optional item. -/
def isIfaceI : Option GItem → Bool
  | some (GItem.iface _) => true
  | _ => false

/-- `ConnectorConnectBase.glue` (connectorconnect.py lines 90-118).
`element` is the adapter's element (the item being glued to), `opp` the item
the opposite handle is attached to (if any), `candPort` the candidate port
and `oppPort` the opposite handle's connected port.  The result of
`super().glue` computed on line 91 is discarded: line 102 overwrites
`glue_ok` unconditionally.  The final `match` models the two `assert`
statements: the fallback arm is unreachable whenever the branch is entered
(the kind checks preceding it guarantee one component and one interface). -/
def connectorBase_glue (element : GItem) (opp : Option GItem)
    (candPort oppPort : IfPort) : Bool :=
  let ci : Option GItem × Option GItem × IfPort :=
    if isIfaceI opp then (some element, opp, oppPort) else (opp, some element, candPort)
  let compI := ci.1
  let ifaceI := ci.2.1
  let port := ci.2.2
  let glue_ok := !(isCompI compI && isCompI ifaceI || isIfaceI compI && isIfaceI ifaceI)
  if glue_ok && compI.isSome && ifaceI.isSome && (port.required || port.provided) then
    match compI, ifaceI with
    | some (GItem.comp c), some (GItem.iface isubj) =>
      (port.provided && c.provided.contains isubj)
        || (port.required && c.required.contains isubj)
    | _, _ => glue_ok
  else
    glue_ok

/-- Kinds of items that may be attached to an interface on the canvas. -/
inductive CKind where
  | connectorItem
  | otherItem
  deriving DecidableEq

/-- `InterfaceConnectorConnect.glue` (lines 199-214): the inherited check,
then folded-state and connectors-only checks on the interface item. -/
def interfaceConnector_glue (ifaceSubj : Nat) (folded : FoldedState) (opp : Option GItem)
    (candPort oppPort : IfPort) (connected : List CKind) : Bool :=
  let g1 := connectorBase_glue (GItem.iface ifaceSubj) opp candPort oppPort
  let g2 := g1 && !(folded == FoldedState.fNone)
  if g2 then
    (connected.filter (fun d => !(d == CKind.connectorItem))).length == 0
  else
    g2

/-- The claim's reading of the endpoint condition, following the words of
the spec: exactly one endpoint of the edge is a component-like item and the
other an interface-like item. -/
def exactlyOneCompOneIface (element : GItem) (opp : Option GItem) : Prop :=
  (isCompI (some element) = true ∧ isIfaceI opp = true)
    ∨ (isIfaceI (some element) = true ∧ isCompI opp = true)

/-- A port with no declared role. -/
def rolelessPort : IfPort :=
  { provided := false, required := false, connectable := true, angle := 0 }

/-- An interface element with its stable name, as sorted by
`operator.attrgetter('name')`. -/
structure NamedIface where
  id : Nat
  name : String
  deriving DecidableEq

/-- The subject of a component item for `_get_interfaces`: the `provided`
and `required` interface collections. -/
structure CompIfSubj where
  provided : List NamedIface
  required : List NamedIface
  deriving DecidableEq

/-- The names bound at module level in connectorconnect.py: its four import
statements (line 10-14) and its three class definitions.  `operator` is not
among them. -/
def connectorconnectModuleNames : List String :=
  ["component", "UML", "items", "AbstractConnect",
   "ConnectorConnectBase", "ComponentConnectorConnect", "InterfaceConnectorConnect"]

/-- Outcome of evaluating a Python function: a value, or an uncaught
NameError for an unbound name. -/
inductive PyResult (α : Type) where
  | ok (val : α)
  | nameError (name : String)
  deriving DecidableEq

/-- `ConnectorConnectBase._get_interfaces` (connectorconnect.py lines 18-33):
builds the set intersection of `c1.subject.provided` and
`c2.subject.required`, then evaluates `interfaces.sort(key=operator.attrgetter('name'))`.
Evaluating the name `operator` in the module namespace fails — the module
never imports it — so every call raises NameError before returning. -/
def get_interfaces (c1 c2 : CompIfSubj) : PyResult (List NamedIface) :=
  let provided := c1.provided.eraseDups
  let required := c2.required.eraseDups
  let interfaces := provided.filter (fun i => required.contains i)
  if connectorconnectModuleNames.contains "operator" then
    PyResult.ok (interfaces.insertionSort (fun a b => a.name ≤ b.name))
  else
    PyResult.nameError "operator"

/-- `FlowConnect.glue` (flowconnect.py lines 19-27), threaded through the
semantic graph state it reads: returns `None` (modelled `false`) when the
head would attach to a FinalNode or the tail to an InitialNode, and
otherwise the result of `RelationshipConnect.glue` — code outside the
sources under verification, which per the spec is a pure predicate, passed
here as the input `superGlue`.  The translation contains no assignment, so
the state is returned unchanged. -/
def flowConnect_glue (handleIsHead : Bool) (superGlue : Bool) (s : FJState) :
    Bool × FJState :=
  if (handleIsHead && (kindOf s s.subject == some NodeClass.final))
      || (!handleIsHead && (kindOf s s.subject == some NodeClass.initial)) then
    (false, s)
  else
    (superGlue, s)

/-- `FlowForkDecisionNodeConnect.glue` (lines 72-81): additionally refuses an
edge whose opposite handle already resolves to this very subject node (no
self-loop through a fork/decision node), then defers to the inherited
check. -/
def flowForkDecision_glue (handleIsHead : Bool) (oppositeSubject : Option Nat)
    (superGlue : Bool) (s : FJState) : Bool × FJState :=
  if oppositeSubject == some s.subject then
    (false, s)
  else
    flowConnect_glue handleIsHead superGlue s

/-- `ConnectorConnectBase.glue` threaded through an ambient assembly state:
lines 90-118 only read item and port attributes (taken as arguments by
`connectorBase_glue`) and contain no assignment, so any state is forwarded
unchanged. -/
def connectorBase_glueSt (element : GItem) (opp : Option GItem)
    (candPort oppPort : IfPort) (w : AsmState) : Bool × AsmState :=
  (connectorBase_glue element opp candPort oppPort, w)

/-- `InterfaceConnectorConnect.glue` threaded through the interface item and
assembly states it reads (`folded`, the connected items): no assignment, the
states are forwarded unchanged. -/
def interfaceConnector_glueSt (iface : IfaceState) (a : AsmState) (opp : Option GItem)
    (candPort oppPort : IfPort) (connected : List CKind) :
    Bool × IfaceState × AsmState :=
  (interfaceConnector_glue iface.subject iface.folded opp candPort oppPort connected,
   iface, a)

lemma moveSrc_of_src {from_ to_ : Nat} {f : FlowEdge} (h : f.src = some from_) :
    moveSrc from_ to_ f = { f with src := some to_ } := by
  simp [moveSrc, h]

lemma moveSrc_of_ne {from_ to_ : Nat} {f : FlowEdge} (h : ¬ f.src = some from_) :
    moveSrc from_ to_ f = f := by
  simp [moveSrc, h]

lemma moveSrc_id (from_ to_ : Nat) (f : FlowEdge) : (moveSrc from_ to_ f).id = f.id := by
  by_cases h : f.src = some from_ <;> simp [moveSrc, h]

lemma moveSrc_tgt (from_ to_ : Nat) (f : FlowEdge) : (moveSrc from_ to_ f).tgt = f.tgt := by
  by_cases h : f.src = some from_ <;> simp [moveSrc, h]

lemma lookup_map_swap (l : List (Nat × NodeClass)) (n : Nat) (k : NodeClass)
    (h : (l.lookup n).isSome = true) :
    (l.map (fun p => if p.1 = n then (n, k) else p)).lookup n = some k := by
  induction l with
  | nil => simp [List.lookup] at h
  | cons p t ih =>
    obtain ⟨p1, p2⟩ := p
    by_cases hp : p1 = n
    · subst hp
      simp [List.lookup_cons]
    · rw [List.lookup_cons, beq_false_of_ne (Ne.symm hp)] at h
      simp only [List.map_cons, if_neg hp, List.lookup_cons, beq_false_of_ne (Ne.symm hp)]
      exact ih h

lemma lookup_none_of_fresh (l : List (Nat × NodeClass)) (n : Nat)
    (h : ∀ p ∈ l, p.1 ≠ n) : l.lookup n = none := by
  induction l with
  | nil => rfl
  | cons p t ih =>
    obtain ⟨p1, p2⟩ := p
    rw [List.lookup_cons, beq_false_of_ne (Ne.symm (h (p1, p2) (by simp)))]
    exact ih (fun q hq => h q (by simp [hq]))

lemma lookup_append_some (l1 l2 : List (Nat × NodeClass)) (n : Nat) (k : NodeClass)
    (h : l1.lookup n = some k) : (l1 ++ l2).lookup n = some k := by
  induction l1 with
  | nil => simp [List.lookup] at h
  | cons p t ih =>
    obtain ⟨p1, p2⟩ := p
    rw [List.cons_append, List.lookup_cons]
    rw [List.lookup_cons] at h
    cases hb : (n == p1) with
    | true => rw [hb] at h; simpa using h
    | false => rw [hb] at h; simpa using ih h

lemma lookup_append_none (l1 l2 : List (Nat × NodeClass)) (n : Nat)
    (h : l1.lookup n = none) : (l1 ++ l2).lookup n = l2.lookup n := by
  induction l1 with
  | nil => simp
  | cons p t ih =>
    obtain ⟨p1, p2⟩ := p
    rw [List.cons_append, List.lookup_cons]
    rw [List.lookup_cons] at h
    cases hb : (n == p1) with
    | true => rw [hb] at h; simp at h
    | false => rw [hb] at h; simpa using ih h

lemma map_move_src_ids (subj F : Nat) (l : List FlowEdge) :
    (l.map (moveSrc subj F)).map FlowEdge.id = l.map FlowEdge.id := by
  induction l with
  | nil => rfl
  | cons f t ih => simp only [List.map_cons, moveSrc_id, ih]

/-- After the move loop, the flows sourced at the new fork node are exactly
(id for id) the flows that were sourced at the subject, provided no
pre-existing flow was already sourced at the (fresh) fork id. -/
lemma filter_src_moved (subj F : Nat) (l : List FlowEdge)
    (hF : ∀ f ∈ l, f.src ≠ some F) :
    ((l.map (moveSrc subj F)).filter (fun f => f.src == some F)).map FlowEdge.id
      = (l.filter (fun f => f.src == some subj)).map FlowEdge.id := by
  induction l with
  | nil => rfl
  | cons f t ih =>
    have ht := ih (fun g hg => hF g (by simp [hg]))
    by_cases hf : f.src = some subj
    · rw [List.map_cons, moveSrc_of_src hf]
      simp [List.filter_cons, hf, ht]
    · have hne : f.src ≠ some F := hF f (by simp)
      rw [List.map_cons, moveSrc_of_ne hf]
      simp [List.filter_cons, hf, hne, ht]

/-- The move loop does not touch targets: incoming collections are preserved
id for id. -/
lemma filter_tgt_moved (subj F t0 : Nat) (l : List FlowEdge) :
    ((l.map (moveSrc subj F)).filter (fun f => f.tgt == some t0)).map FlowEdge.id
      = (l.filter (fun f => f.tgt == some t0)).map FlowEdge.id := by
  induction l with
  | nil => rfl
  | cons f t ih =>
    rw [List.map_cons]
    by_cases hf : f.src = some subj
    · rw [moveSrc_of_src hf]
      by_cases htg : f.tgt = some t0 <;> simp [List.filter_cons, htg, ih]
    · rw [moveSrc_of_ne hf]
      by_cases htg : f.tgt = some t0 <;> simp [List.filter_cons, htg, ih]

/-- After the move loop no flow is sourced at the subject any more. -/
lemma filter_src_subj_moved (subj F : Nat) (hne : subj ≠ F) (l : List FlowEdge) :
    (l.map (moveSrc subj F)).filter (fun f => f.src == some subj) = [] := by
  induction l with
  | nil => rfl
  | cons f t ih =>
    rw [List.map_cons]
    by_cases hf : f.src = some subj
    · rw [moveSrc_of_src hf]
      have h2 : ¬ (some F = some subj) := fun h => hne (Option.some_injective Nat h).symm
      have h3 : ¬ (F = subj) := fun h => hne h.symm
      simp [List.filter_cons, h2, h3, ih]
    · rw [moveSrc_of_ne hf]
      simp [List.filter_cons, hf, ih]

/-- C1.  Every invocation of `combine_nodes` on a fork/decision item acts as
a deterministic function of the subject node's (indegree, outdegree): with
indegree > 1 and outdegree < 2 the subject is reclassified in place to the
Join/Merge kind; with indegree < 2 and outdegree > 1 it is reclassified to the
Fork/Decision kind; with indegree > 1, outdegree > 1 and no combined
companion, the node is split: the original node keeps its identity and all
incoming edges and becomes Join/Merge-kind, a newly created node (fresh id
`s.nextId`) takes over all outgoing edges and becomes Fork/Decision-kind,
exactly one new flow edge is created with the join as source and the fork as
target, its kind ObjectFlow when some incoming edge is an ObjectFlow and
ControlFlow otherwise, and the item's combined-companion reference is set to
the new fork node. -/
theorem combine_nodes_spec (ac : AdapterClasses) (s : FJState) (hwf : combineWf s) :
    (1 < (incomingF s s.subject).length → (outgoingF s s.subject).length < 2 →
        kindOf (combine_nodes ac s) s.subject = some ac.join
        ∧ (combine_nodes ac s).flows = s.flows
        ∧ (combine_nodes ac s).combined = s.combined
        ∧ (combine_nodes ac s).subject = s.subject)
  ∧ ((incomingF s s.subject).length < 2 → 1 < (outgoingF s s.subject).length →
        kindOf (combine_nodes ac s) s.subject = some ac.fork
        ∧ (combine_nodes ac s).flows = s.flows
        ∧ (combine_nodes ac s).combined = s.combined
        ∧ (combine_nodes ac s).subject = s.subject)
  ∧ (s.combined = none → 1 < (incomingF s s.subject).length →
        1 < (outgoingF s s.subject).length →
        (combine_nodes ac s).subject = s.subject
        ∧ kindOf (combine_nodes ac s) s.subject = some ac.join
        ∧ kindOf s s.nextId = none
        ∧ kindOf (combine_nodes ac s) s.nextId = some ac.fork
        ∧ (incomingF (combine_nodes ac s) s.subject).map FlowEdge.id
            = (incomingF s s.subject).map FlowEdge.id
        ∧ (outgoingF (combine_nodes ac s) s.nextId).map FlowEdge.id
            = (outgoingF s s.subject).map FlowEdge.id
        ∧ outgoingF (combine_nodes ac s) s.subject
            = [{ id := s.nextId + 1, src := some s.subject, tgt := some s.nextId,
                 kind := if (incomingF s s.subject).any (fun f => f.kind == FlowKind.object)
                         then FlowKind.object else FlowKind.control }]
        ∧ (combine_nodes ac s).flows.map FlowEdge.id
            = s.flows.map FlowEdge.id ++ [s.nextId + 1]
        ∧ (combine_nodes ac s).combined = some s.nextId) := by
  obtain ⟨hsub, hlook, hnodes, hflows⟩ := hwf
  refine ⟨?_, ?_, ?_⟩
  · intro h1 h2
    have hred : combine_nodes ac s = swap_element s s.subject ac.join := by
      unfold combine_nodes
      rw [if_pos ⟨h1, h2⟩]
    rw [hred]
    exact ⟨lookup_map_swap s.nodes s.subject ac.join hlook, rfl, rfl, rfl⟩
  · intro h1 h2
    have hred : combine_nodes ac s = swap_element s s.subject ac.fork := by
      unfold combine_nodes
      rw [if_neg (fun hcon => absurd hcon.1 (by omega)), if_pos ⟨h1, h2⟩]
    rw [hred]
    exact ⟨lookup_map_swap s.nodes s.subject ac.fork hlook, rfl, rfl, rfl⟩
  · intro hc h1 h2
    have hne_sn : s.subject ≠ s.nextId := Nat.ne_of_lt hsub
    have hred : combine_nodes ac s =
        { nodes := (s.nodes.map (fun p => if p.1 = s.subject then (s.subject, ac.join) else p))
                     ++ [(s.nextId, ac.fork)],
          flows := (s.flows.map (moveSrc s.subject s.nextId)) ++
                   [{ id := s.nextId + 1, src := some s.subject, tgt := some s.nextId,
                      kind := if (incomingF s s.subject).any (fun f => f.kind == FlowKind.object)
                              then FlowKind.object else FlowKind.control }],
          subject := s.subject, combined := some s.nextId, nextId := s.nextId + 2 } := by
      unfold combine_nodes
      rw [if_neg (fun hcon => absurd hcon.2 (by omega)),
          if_neg (fun hcon => absurd hcon.1 (by omega)), if_pos ⟨hc, h1, h2⟩]
      rfl
    have hfreshNodes : ∀ p ∈ s.nodes, p.1 ≠ s.nextId :=
      fun p hp => Nat.ne_of_lt (hnodes p hp)
    have hfreshSrc : ∀ f ∈ s.flows, f.src ≠ some s.nextId := by
      intro f hf hcon
      exact absurd ((hflows f hf).2.1 s.nextId hcon) (by omega)
    refine ⟨?_, ?_, ?_, ?_, ?_, ?_, ?_, ?_, ?_⟩
    · rw [hred]
    · rw [hred]
      unfold kindOf
      exact lookup_append_some _ _ _ _ (lookup_map_swap s.nodes s.subject ac.join hlook)
    · exact lookup_none_of_fresh s.nodes s.nextId hfreshNodes
    · rw [hred]
      unfold kindOf
      rw [lookup_append_none]
      · simp [List.lookup]
      · refine lookup_none_of_fresh _ s.nextId ?_
        intro q hq
        obtain ⟨p, hp, rfl⟩ := List.mem_map.1 hq
        by_cases hps : p.1 = s.subject
        · simp only [if_pos hps]
          exact hne_sn
        · simp only [if_neg hps]
          exact hfreshNodes p hp
    · rw [hred]
      unfold incomingF
      rw [List.filter_append, List.map_append]
      have hlink : ∀ kk : FlowKind, (List.filter (fun (f : FlowEdge) => f.tgt == some s.subject)
          [{ id := s.nextId + 1, src := some s.subject, tgt := some s.nextId,
             kind := kk }]) = [] := by
        intro kk
        simp [List.filter_cons, Ne.symm hne_sn]
      rw [hlink]
      simpa using filter_tgt_moved s.subject s.nextId s.subject s.flows
    · rw [hred]
      unfold outgoingF
      rw [List.filter_append, List.map_append]
      have hlink : ∀ kk : FlowKind, (List.filter (fun (f : FlowEdge) => f.src == some s.nextId)
          [{ id := s.nextId + 1, src := some s.subject, tgt := some s.nextId,
             kind := kk }]) = [] := by
        intro kk
        simp [List.filter_cons, hne_sn]
      rw [hlink]
      simpa using filter_src_moved s.subject s.nextId s.flows hfreshSrc
    · rw [hred]
      unfold outgoingF
      rw [List.filter_append, filter_src_subj_moved s.subject s.nextId hne_sn]
      simp [List.filter_cons]
    · rw [hred]
      rw [List.map_append, map_move_src_ids]
      rfl
    · rw [hred]

/-- Witness for C1: the split branch of `combine_nodes` on the concrete
2-in/2-out fork state. -/
theorem combine_nodes_spec_witness :
    combineWf twoInTwoOut
    ∧ twoInTwoOut.combined = none
    ∧ 1 < (incomingF twoInTwoOut twoInTwoOut.subject).length
    ∧ 1 < (outgoingF twoInTwoOut twoInTwoOut.subject).length
    ∧ kindOf (combine_nodes forkNodeAdapter twoInTwoOut) twoInTwoOut.subject
        = some NodeClass.join
    ∧ (combine_nodes forkNodeAdapter twoInTwoOut).combined = some 9 := by
  refine ⟨by decide, by decide, by decide, by decide, ?_, ?_⟩
  · exact ((combine_nodes_spec forkNodeAdapter twoInTwoOut (by decide)).2.2
      (by decide) (by decide) (by decide)).2.1
  · exact ((combine_nodes_spec forkNodeAdapter twoInTwoOut (by decide)).2.2
      (by decide) (by decide) (by decide)).2.2.2.2.2.2.2.2

/-- C2, evaluation of the code at the failing input.  On the combined pair
built from the 2-in/2-out state, after the base disconnect removed outgoing
flow 8, `decombine_nodes` (i) deletes flow 7 — the surviving user outgoing
edge it had just moved back to the join — instead of the linking flow,
because the Python loop variable `flow` shadows `join_node.outgoing[0]`, and
(ii) leaves the linking flow 10 alive with a dangling target, contradicting
the claim that every outgoing edge of the fork is moved back onto the join
and that the linking flow is deleted. -/
theorem decombine_deletes_surviving_flow :
    (decombine_nodes forkNodeAdapter afterDrop8).flows.map FlowEdge.id = [5, 6, 10]
    ∧ (decombine_nodes forkNodeAdapter afterDrop8).flows.all (fun f => f.id != 7) = true
    ∧ (decombine_nodes forkNodeAdapter afterDrop8).flows.any
        (fun f => f.id == 10 && f.tgt == none) = true
    ∧ (outgoingF afterDrop8 9).map FlowEdge.id = [7]
    ∧ (incomingF afterDrop8 afterDrop8.subject).map FlowEdge.id = [5, 6]
    ∧ (decombine_nodes forkNodeAdapter afterDrop8).combined = none := by
  decide

/-- Counterexample for C3: in a disconnect whose opposite endpoint is a
fork/decision item with a combined companion, the decombine step is *not*
invoked before the base removal of the relationship subject — the source
calls `super().disconnect_subject(handle)` first. -/
theorem disconnect_order_counterexample :
    ¬ ((flow_disconnect true false).indexOf DEvent.decombineCall
        < (flow_disconnect true false).indexOf DEvent.baseRemoval) := by
  decide

/-- C3 as amended: in every execution of a flow edge's `disconnect_subject`
where the opposite endpoint's item is a fork/decision item (in particular
when it holds a combined companion), the decombine step is invoked *after*
the base removal of the relationship subject, and the combinator cleanup
still runs before the handle's weak reference to the opposite item is
cleared, which happens last. -/
theorem disconnect_order (selfCombined : Bool) :
    (flow_disconnect true selfCombined).indexOf DEvent.baseRemoval
        < (flow_disconnect true selfCombined).indexOf DEvent.decombineCall
    ∧ (flow_disconnect true selfCombined).indexOf DEvent.decombineCall
        < (flow_disconnect true selfCombined).indexOf DEvent.clearWeakRef
    ∧ (flow_disconnect true selfCombined).getLast? = some DEvent.clearWeakRef := by
  cases selfCombined <;> decide

lemma map_upd_of_ne {α : Type} (idf : α → Nat) (g : α → α) (eid : Nat) (l : List α)
    (h : ∀ e ∈ l, idf e ≠ eid) :
    l.map (fun e => if idf e = eid then g e else e) = l := by
  induction l with
  | nil => rfl
  | cons e t ih =>
    rw [List.map_cons, if_neg (h e (by simp)), ih (fun x hx => h x (by simp [hx]))]

lemma find?_subject_none (l : List AEdge) (h : ∀ e ∈ l, e.subject = none) :
    l.find? (fun e => e.subject.isSome) = none := by
  rw [List.find?_eq_none]
  intro e he
  simp [h e he]

lemma filter_of_ne_ids {α : Type} (idf : α → Nat) (n : Nat) (l : List α)
    (h : ∀ e ∈ l, idf e ≠ n) :
    l.filter (fun e => idf e != n) = l := by
  induction l with
  | nil => rfl
  | cons e t ih =>
    rw [List.filter_cons, if_pos (by simp [h e (by simp)]), ih (fun x hx => h x (by simp [hx]))]

/-- Clearing the references of the edge that is about to be detached and then
removing it from the canvas is removal alone. -/
lemma map_clear_filter (g : AEdge → AEdge) (hid : ∀ e, (g e).id = e.id)
    (eid : Nat) (l : List AEdge) :
    (l.map (fun e => if e.id = eid then g e else e)).filter (fun e => e.id != eid)
      = l.filter (fun e => e.id != eid) := by
  induction l with
  | nil => rfl
  | cons e t ih =>
    rw [List.map_cons]
    by_cases he : e.id = eid
    · rw [if_pos he, List.filter_cons, List.filter_cons,
          if_neg (by simp [hid, he]), if_neg (by simp [he]), ih]
    · rw [if_neg he, List.filter_cons, List.filter_cons, if_pos (by simp [he]),
          if_pos (by simp [he]), ih]

lemma nodup_map_id_filter {α : Type} (idf : α → Nat) (p : α → Bool) (l : List α)
    (h : (l.map idf).Nodup) : ((l.filter p).map idf).Nodup := by
  induction l with
  | nil => simp
  | cons e t ih =>
    rw [List.map_cons, List.nodup_cons] at h
    rw [List.filter_cons]
    by_cases hp : p e = true
    · rw [if_pos hp, List.map_cons, List.nodup_cons]
      refine ⟨fun hc => h.1 ?_, ih h.2⟩
      · obtain ⟨x, hx, hxe⟩ := List.mem_map.1 hc
        exact List.mem_map.2 ⟨x, (List.mem_filter.1 hx).1, hxe⟩
    · rw [if_neg hp]
      exact ih h.2

lemma asm_connect_nil (s : AsmState) (eid cid : Nat) (h : s.attached = []) :
    asm_connect s eid cid =
      { s with attached := [{ id := eid, comp := cid, subject := none, endId := none }] } := by
  simp [asm_connect, newEdge, h]

/-- Attaching the second connector edge: the shared assembly connector is
created, with one connector-end (and one synthesized port) per connected
edge. -/
lemma asm_connect_one (s : AsmState) (eid cid : Nat) (e1 : AEdge)
    (hatt : s.attached = [e1]) (hsub : e1.subject = none)
    (hconn : s.connectors = []) (hne : e1.id ≠ eid) :
    asm_connect s eid cid =
      { ifaceSubject := s.ifaceSubject,
        attached := [{ e1 with subject := some s.nextId, endId := some (s.nextId+1) },
                     { id := eid, comp := cid, subject := some s.nextId,
                       endId := some (s.nextId+3) }],
        connectors := [{ id := s.nextId, kind := "assembly",
                         ends := [s.nextId+1, s.nextId+3] }],
        uends := s.uends ++ [{ id := s.nextId+1, role := s.ifaceSubject,
                               partWithPort := s.nextId+2 },
                             { id := s.nextId+3, role := s.ifaceSubject,
                               partWithPort := s.nextId+4 }],
        ownedPorts := s.ownedPorts ++ [(e1.comp, s.nextId+2), (cid, s.nextId+4)],
        nextId := s.nextId + 5 } := by
  have hne2 : ¬ (eid = e1.id) := fun h => hne h.symm
  simp [asm_connect, newEdge, create_uml, hatt, hsub, hconn, hne, hne2, List.find?_cons_of_neg]

/-- Attaching a further connector edge to an already grouped interface: the
first-found existing assembly connector is reused and exactly one new end
(and port) is created, for the new edge. -/
lemma asm_connect_grouped (s : AsmState) (eid cid : Nat) (A : UConnector)
    (hgr : Grouped s A) (hv : ∀ a ∈ s.attached, a.id ≠ eid)
    (hlen : 2 ≤ s.attached.length) :
    asm_connect s eid cid =
      { ifaceSubject := s.ifaceSubject,
        attached := s.attached ++
          [{ newEdge eid cid with subject := some A.id, endId := some s.nextId }],
        connectors := [{ A with ends := A.ends ++ [s.nextId] }],
        uends := s.uends ++
          [{ id := s.nextId, role := s.ifaceSubject, partWithPort := s.nextId + 1 }],
        ownedPorts := s.ownedPorts ++ [(cid, s.nextId + 1)],
        nextId := s.nextId + 2 } := by
  obtain ⟨hconn, hkind, hbound, hends, hrel⟩ := hgr
  cases hatt : s.attached with
  | nil => rw [hatt] at hlen; simp at hlen
  | cons a rest =>
    rw [hatt] at hrel
    obtain ⟨u, urest, hpair, hrest, huends⟩ := List.forall₂_cons_left_iff.1 hrel
    obtain ⟨hasub, haend, hurole⟩ := hpair
    have hfind : List.find? (fun e => e.subject.isSome) (a :: (rest ++ [newEdge eid cid]))
        = some a := List.find?_cons_of_pos _ (by simp [hasub])
    have hupd : ∀ e ∈ a :: rest, e.id ≠ eid := by
      rw [← hatt]; exact hv
    have hcond : 1 < (a :: (rest ++ [newEdge eid cid])).length := by simp
    unfold asm_connect
    simp only [hatt, List.cons_append]
    rw [if_pos hcond, hfind]
    simp only [hasub]
    unfold create_uml
    rw [hconn]
    have hmap : (a :: (rest ++ [newEdge eid cid])).map (fun e =>
          if e.id = eid then { e with subject := some A.id, endId := some s.nextId } else e)
        = a :: (rest ++ [{ newEdge eid cid with subject := some A.id, endId := some s.nextId }]) := by
      rw [show a :: (rest ++ [newEdge eid cid]) = (a :: rest) ++ [newEdge eid cid] from rfl,
          List.map_append, map_upd_of_ne AEdge.id _ eid _ hupd]
      simp [newEdge]
    simp only [hmap]
    simp [hatt, newEdge]

lemma good_connect (s : AsmState) (eid cid : Nat) (hg : GoodAsm s)
    (hv : ∀ a ∈ s.attached, a.id ≠ eid) : GoodAsm (asm_connect s eid cid) := by
  obtain ⟨hn1, hn2, hb1, hb2, hcase⟩ := hg
  rcases hcase with ⟨hlen, hconn, hue, hclean⟩ | ⟨hlen, A, hA⟩
  · cases hatt : s.attached with
    | nil =>
      rw [asm_connect_nil s eid cid hatt]
      refine ⟨by simp, by simpa using hn2, by simpa using hb1, by simpa using hb2, Or.inl ?_⟩
      refine ⟨by simp, hconn, hue, ?_⟩
      intro e he
      simp only [List.mem_singleton] at he
      subst he
      exact ⟨rfl, rfl⟩
    | cons e1 rest =>
      have hrnil : rest = [] := by
        rw [hatt] at hlen
        simp only [List.length_cons] at hlen
        exact List.eq_nil_of_length_eq_zero (by omega)
      subst hrnil
      have he1sub : e1.subject = none := (hclean e1 (by rw [hatt]; simp)).1
      have hne : e1.id ≠ eid := hv e1 (by rw [hatt]; simp)
      rw [asm_connect_one s eid cid e1 hatt he1sub hconn hne]
      refine ⟨by simp [hne], ?_, ?_, ?_, Or.inr ⟨by simp, ?_⟩⟩
      · rw [hue]
        simp only [List.nil_append, List.map_cons, List.map_nil]
        simp [List.nodup_cons]
      · intro v hv2
        rw [hue] at hv2
        simp only [List.nil_append, List.mem_cons, List.not_mem_nil, or_false] at hv2
        rcases hv2 with h | h <;> (subst h; simp)
      · intro p hp
        simp only [List.mem_append, List.mem_cons, List.not_mem_nil, or_false] at hp
        rcases hp with h | h | h
        · exact lt_trans (hb2 p h) (by omega : s.nextId < s.nextId + 5)
        · subst h; simp
        · subst h; simp
      · refine ⟨{ id := s.nextId, kind := "assembly", ends := [s.nextId+1, s.nextId+3] },
          rfl, rfl, by simp, ?_, ?_⟩
        · rw [hue]; simp
        · rw [hue]
          simp only [List.nil_append]
          exact List.Forall₂.cons ⟨rfl, rfl, rfl⟩ (List.Forall₂.cons ⟨rfl, rfl, rfl⟩ List.Forall₂.nil)
  · rw [asm_connect_grouped s eid cid A hA hv hlen]
    obtain ⟨hconn, hkind, hbound, hends, hrel⟩ := hA
    have hnotmem : eid ∉ s.attached.map AEdge.id := by
      intro hmem
      obtain ⟨x, hx, hxe⟩ := List.mem_map.1 hmem
      exact hv x hx hxe
    have hnotmem2 : s.nextId ∉ s.uends.map UEnd.id := by
      intro hmem
      obtain ⟨x, hx, hxe⟩ := List.mem_map.1 hmem
      exact absurd (hb1 x hx) (by omega)
    have hlen2 : 2 ≤ (s.attached ++ [{ newEdge eid cid with subject := some A.id, endId := some s.nextId }]).length := by
      simp
      omega
    refine ⟨?_, ?_, ?_, ?_, Or.inr ⟨hlen2, ?_⟩⟩
    · simp only [List.map_append, List.map_cons, List.map_nil]
      simp [List.nodup_append, hn1, hnotmem, newEdge]
    · simp only [List.map_append, List.map_cons, List.map_nil]
      simp [List.nodup_append, hn2, hnotmem2]
    · intro v hv2
      simp only [List.mem_append, List.mem_cons, List.not_mem_nil, or_false] at hv2
      rcases hv2 with h | h
      · exact lt_trans (hb1 v h) (by omega : s.nextId < s.nextId + 2)
      · subst h; simp
    · intro p hp
      simp only [List.mem_append, List.mem_cons, List.not_mem_nil, or_false] at hp
      rcases hp with h | h
      · exact lt_trans (hb2 p h) (by omega : s.nextId < s.nextId + 2)
      · subst h; simp
    · refine ⟨{ A with ends := A.ends ++ [s.nextId] }, rfl, hkind,
        lt_trans hbound (by omega : s.nextId < s.nextId + 2), ?_, ?_⟩
      · simp [hends]
      · refine List.rel_append hrel ?_
        exact List.Forall₂.cons ⟨rfl, rfl, rfl⟩ List.Forall₂.nil

lemma find?_id_self (l : List AEdge) (e : AEdge) (he : e ∈ l)
    (hn : (l.map AEdge.id).Nodup) : l.find? (fun x => x.id == e.id) = some e := by
  induction l with
  | nil => simp at he
  | cons x t ih =>
    rw [List.map_cons, List.nodup_cons] at hn
    rcases List.mem_cons.1 he with h | h
    · subst h
      exact List.find?_cons_of_pos _ (by simp)
    · have hxid : x.id ≠ e.id := by
        intro hc
        exact hn.1 (hc ▸ List.mem_map.2 ⟨e, h, rfl⟩)
      rw [List.find?_cons_of_neg _ (by simp [hxid])]
      exact ih h hn.2

lemma forall2_exists_right {R : AEdge → UEnd → Prop} {l1 : List AEdge} {l2 : List UEnd}
    (h : List.Forall₂ R l1 l2) {x : AEdge} (hx : x ∈ l1) : ∃ y ∈ l2, R x y := by
  induction h with
  | nil => simp at hx
  | cons hpair hrest ih =>
    rcases List.mem_cons.1 hx with h | h
    · subst h
      exact ⟨_, by simp, hpair⟩
    · obtain ⟨y, hy, hr⟩ := ih h
      exact ⟨y, by simp [hy], hr⟩

lemma length_filter_remove {α : Type} (idf : α → Nat) (l : List α) (e : α) (he : e ∈ l)
    (hn : (l.map idf).Nodup) :
    (l.filter (fun x => idf x != idf e)).length + 1 = l.length := by
  induction l with
  | nil => simp at he
  | cons x t ih =>
    rw [List.map_cons, List.nodup_cons] at hn
    rcases List.mem_cons.1 he with h | h
    · subst h
      rw [List.filter_cons, if_neg (by simp)]
      rw [filter_of_ne_ids idf (idf e) t
        (fun q hq hc => hn.1 (hc ▸ List.mem_map.2 ⟨q, hq, rfl⟩))]
      simp
    · have hxid : idf x ≠ idf e := by
        intro hc
        exact hn.1 (hc ▸ List.mem_map.2 ⟨e, h, rfl⟩)
      rw [List.filter_cons, if_pos (by simp [hxid])]
      simp only [List.length_cons]
      rw [← ih h hn.2]

/-- Dropping the one UML end of the one detached edge keeps the remaining
edges paired with the remaining ends. -/
lemma forall2_filter_pair (Aid ifc uid eid : Nat) (l1 : List AEdge) (l2 : List UEnd)
    (hrel : List.Forall₂ (pairR Aid ifc) l1 l2)
    (hn1 : (l1.map AEdge.id).Nodup) (hn2 : (l2.map UEnd.id).Nodup)
    (e : AEdge) (he : e ∈ l1) (heid : e.id = eid) (hend : e.endId = some uid) :
    List.Forall₂ (pairR Aid ifc) (l1.filter (fun x => x.id != eid))
      (l2.filter (fun u => u.id != uid)) := by
  induction hrel with
  | nil => simp at he
  | cons hpair hrest ih =>
    rename_i x y t1 t2
    rw [List.map_cons, List.nodup_cons] at hn1
    rw [List.map_cons, List.nodup_cons] at hn2
    by_cases hx : x.id = eid
    · have hxe : x = e := by
        rcases List.mem_cons.1 he with h | h
        · exact h.symm
        · exact absurd ((hx.trans heid.symm) ▸ List.mem_map.2 ⟨e, h, rfl⟩) hn1.1
      have hyid : y.id = uid := by
        have h1 : x.endId = some y.id := hpair.2.1
        rw [hxe, hend] at h1
        exact (Option.some_injective Nat h1).symm
      rw [List.filter_cons, List.filter_cons, if_neg (by simp [hx]), if_neg (by simp [hyid])]
      rw [filter_of_ne_ids AEdge.id eid t1
        (fun q hq hc => hn1.1 ((hx ▸ hc : q.id = x.id) ▸ List.mem_map.2 ⟨q, hq, rfl⟩)),
        filter_of_ne_ids UEnd.id uid t2
        (fun q hq hc => hn2.1 ((hyid ▸ hc : q.id = y.id) ▸ List.mem_map.2 ⟨q, hq, rfl⟩))]
      exact hrest
    · have het : e ∈ t1 := by
        rcases List.mem_cons.1 he with h | h
        · exact absurd (h ▸ heid) hx
        · exact h
      have hyid : y.id ≠ uid := by
        intro hc
        obtain ⟨u2, hu2, hr2⟩ := forall2_exists_right hrest het
        have : u2.id = uid := by
          have h1 : e.endId = some u2.id := hr2.2.1
          rw [hend] at h1
          exact (Option.some_injective Nat h1).symm
        exact hn2.1 ((hc.trans this.symm) ▸ List.mem_map.2 ⟨u2, hu2, rfl⟩)
      rw [List.filter_cons, List.filter_cons, if_pos (by simp [hx]), if_pos (by simp [hyid])]
      exact List.Forall₂.cons hpair (ih hn1.2 hn2.2 het)

/-- Disconnecting one of exactly two attached edges (here the first one):
every attached edge's UML is dropped and the shared connector unlinked. -/
lemma asm_disconnect_two_a (s : AsmState) (a b : AEdge) (A : UConnector) (u v : UEnd)
    (hatt : s.attached = [a, b]) (hconn : s.connectors = [A]) (hue : s.uends = [u, v])
    (hpa : pairR A.id s.ifaceSubject a u) (hpb : pairR A.id s.ifaceSubject b v)
    (hab : a.id ≠ b.id) (huv : u.id ≠ v.id) :
    asm_disconnect s a.id =
      { ifaceSubject := s.ifaceSubject,
        attached := [{ b with endId := none, subject := none }],
        connectors := [],
        uends := [],
        ownedPorts := (s.ownedPorts.filter (fun p => p.1 != a.comp)).filter
          (fun p => p.1 != b.comp),
        nextId := s.nextId } := by
  obtain ⟨hpa1, hpa2, hpa3⟩ := hpa
  obtain ⟨hpb1, hpb2, hpb3⟩ := hpb
  have hba : ¬ (b.id = a.id) := fun h => hab h.symm
  have hvu : ¬ (v.id = u.id) := fun h => huv h.symm
  have hfind : s.attached.find? (fun e => e.id == a.id) = some a := by
    rw [hatt]
    exact List.find?_cons_of_pos _ (by simp)
  have hab2 : (a.id == b.id) = false := by simp [hab]
  have hba2 : (b.id == a.id) = false := by simp [hba]
  simp [asm_disconnect, drop_uml, hatt, hconn, hue, hfind, hpa1, hpa2, hpb1, hpb2,
    hab, hba, huv, hvu, hab2, hba2, List.find?]

/-- Disconnecting one of exactly two attached edges (here the second one). -/
lemma asm_disconnect_two_b (s : AsmState) (a b : AEdge) (A : UConnector) (u v : UEnd)
    (hatt : s.attached = [a, b]) (hconn : s.connectors = [A]) (hue : s.uends = [u, v])
    (hpa : pairR A.id s.ifaceSubject a u) (hpb : pairR A.id s.ifaceSubject b v)
    (hab : a.id ≠ b.id) (huv : u.id ≠ v.id) :
    asm_disconnect s b.id =
      { ifaceSubject := s.ifaceSubject,
        attached := [{ a with endId := none, subject := none }],
        connectors := [],
        uends := [],
        ownedPorts := (s.ownedPorts.filter (fun p => p.1 != a.comp)).filter
          (fun p => p.1 != b.comp),
        nextId := s.nextId } := by
  obtain ⟨hpa1, hpa2, hpa3⟩ := hpa
  obtain ⟨hpb1, hpb2, hpb3⟩ := hpb
  have hba : ¬ (b.id = a.id) := fun h => hab h.symm
  have hvu : ¬ (v.id = u.id) := fun h => huv h.symm
  have hab2 : (a.id == b.id) = false := by simp [hab]
  have hba2 : (b.id == a.id) = false := by simp [hba]
  have hfind : s.attached.find? (fun e => e.id == b.id) = some b := by
    rw [hatt]
    rw [List.find?_cons_of_neg _ (by simp [hab])]
    exact List.find?_cons_of_pos _ (by simp)
  simp [asm_disconnect, drop_uml, hatt, hconn, hue, hfind, hpa1, hpa2, hpb1, hpb2,
    hab, hba, huv, hvu, hab2, hba2, List.find?]

/-- Disconnecting one of three or more attached edges: only that edge's end
(and port) is dropped; the shared connector survives. -/
lemma asm_disconnect_many (s : AsmState) (A : UConnector) (e : AEdge) (uid : Nat)
    (hgr : Grouped s A) (hn1 : (s.attached.map AEdge.id).Nodup)
    (he : e ∈ s.attached) (hend : e.endId = some uid)
    (hlen : s.attached.length ≠ 2) :
    asm_disconnect s e.id =
      { ifaceSubject := s.ifaceSubject,
        attached := s.attached.filter (fun x => x.id != e.id),
        connectors := [{ A with ends := A.ends.filter (fun x => some x != some uid) }],
        uends := s.uends.filter (fun w => some w.id != some uid),
        ownedPorts := s.ownedPorts.filter (fun p => p.1 != e.comp),
        nextId := s.nextId } := by
  obtain ⟨hconn, hkind, hbound, hends, hrel⟩ := hgr
  have hfind : s.attached.find? (fun x => x.id == e.id) = some e := find?_id_self _ _ he hn1
  obtain ⟨u2, hu2, hr2⟩ := forall2_exists_right hrel he
  have hesub : e.subject = some A.id := hr2.1
  unfold asm_disconnect drop_uml
  rw [hfind]
  simp only [hesub]
  rw [if_neg (by simp : ¬ (some A.id = none)), if_neg hlen]
  dsimp only [Option.bind]
  rw [hend, hconn,
      map_clear_filter (fun x => { x with endId := none, subject := none })
        (fun x => rfl) e.id s.attached]
  dsimp only [List.map]

lemma asm_disconnect_not_found (s : AsmState) (eid : Nat)
    (hfind : s.attached.find? (fun e => e.id == eid) = none) :
    asm_disconnect s eid = s := by
  unfold asm_disconnect
  rw [hfind]
  dsimp only
  rw [filter_of_ne_ids AEdge.id eid s.attached ?_]
  · intro e he hc
    have := List.find?_eq_none.1 hfind e he
    simp [hc] at this

lemma asm_disconnect_clean (s : AsmState) (eid : Nat) (line : AEdge)
    (hfind : s.attached.find? (fun e => e.id == eid) = some line)
    (hsub : line.subject = none) :
    asm_disconnect s eid = { s with attached := s.attached.filter (fun e => e.id != eid) } := by
  unfold asm_disconnect
  rw [hfind]
  simp only [hsub, if_pos]

lemma map_filter_swap {α β : Type} (f : α → β) (p : β → Bool) (l : List α) :
    (l.map f).filter p = (l.filter (fun a => p (f a))).map f := by
  induction l with
  | nil => rfl
  | cons x t ih =>
    rw [List.map_cons, List.filter_cons, List.filter_cons]
    by_cases hx : p (f x) = true
    · rw [if_pos hx, if_pos hx, List.map_cons, ih]
    · rw [if_neg hx, if_neg hx, ih]

lemma good_disconnect (s : AsmState) (eid : Nat) (hg : GoodAsm s) :
    GoodAsm (asm_disconnect s eid) := by
  obtain ⟨hn1, hn2, hb1, hb2, hcase⟩ := hg
  cases hfind : s.attached.find? (fun e => e.id == eid) with
  | none =>
    rw [asm_disconnect_not_found s eid hfind]
    exact ⟨hn1, hn2, hb1, hb2, hcase⟩
  | some line =>
    have hline_mem : line ∈ s.attached := List.mem_of_find?_eq_some hfind
    have hline_id : line.id = eid := by simpa using List.find?_some hfind
    subst hline_id
    rcases hcase with ⟨hlen, hconn, hue, hclean⟩ | ⟨hlen, A, hA⟩
    · have hsub : line.subject = none := (hclean line hline_mem).1
      rw [asm_disconnect_clean s line.id line hfind hsub]
      refine ⟨nodup_map_id_filter _ _ _ hn1, hn2, hb1, hb2, Or.inl ⟨?_, hconn, hue, ?_⟩⟩
      · exact le_trans (List.length_filter_le _ _) hlen
      · intro e he2
        exact hclean e (List.mem_of_mem_filter he2)
    · obtain ⟨hconn, hkind, hbound, hends, hrel⟩ := hA
      by_cases h2 : s.attached.length = 2
      · obtain ⟨a, b, hab_eq⟩ := List.length_eq_two.1 h2
        rw [hab_eq] at hrel
        obtain ⟨u, urest, hpa, hrest, huends⟩ := List.forall₂_cons_left_iff.1 hrel
        obtain ⟨v, vrest, hpb, hvrest, hurest⟩ := List.forall₂_cons_left_iff.1 hrest
        have hvnil : vrest = [] := by
          cases hvrest
          rfl
        subst hvnil
        subst hurest
        have hue2 : s.uends = [u, v] := huends
        have hab : a.id ≠ b.id := by
          rw [hab_eq] at hn1
          simpa using hn1
        have huv : u.id ≠ v.id := by
          rw [hue2] at hn2
          simpa using hn2
        have hmem2 : line = a ∨ line = b := by
          rw [hab_eq] at hline_mem
          simpa using hline_mem
        rcases hmem2 with hla | hlb
        · subst hla
          rw [asm_disconnect_two_a s line b A u v hab_eq hconn hue2 hpa hpb hab huv]
          refine ⟨by simp, by simp, by simp, ?_, Or.inl ⟨by simp, rfl, rfl, ?_⟩⟩
          · intro p hp
            exact hb2 p (List.mem_of_mem_filter (List.mem_of_mem_filter hp))
          · intro e he2
            simp only [List.mem_singleton] at he2
            subst he2
            exact ⟨rfl, rfl⟩
        · subst hlb
          rw [asm_disconnect_two_b s a line A u v hab_eq hconn hue2 hpa hpb hab huv]
          refine ⟨by simp, by simp, by simp, ?_, Or.inl ⟨by simp, rfl, rfl, ?_⟩⟩
          · intro p hp
            exact hb2 p (List.mem_of_mem_filter (List.mem_of_mem_filter hp))
          · intro e he2
            simp only [List.mem_singleton] at he2
            subst he2
            exact ⟨rfl, rfl⟩
      · obtain ⟨uL, huL, hrL⟩ := forall2_exists_right hrel hline_mem
        have hendL : line.endId = some uL.id := hrL.2.1
        rw [asm_disconnect_many s A line uL.id ⟨hconn, hkind, hbound, hends, hrel⟩
          hn1 hline_mem hendL h2]
        have hsome : ∀ x y : Nat, (some x != some y) = (x != y) := fun x y => rfl
        have hlen3 : 3 ≤ s.attached.length := by omega
        have hflen : (s.attached.filter (fun x => x.id != line.id)).length + 1
            = s.attached.length :=
          length_filter_remove AEdge.id s.attached line hline_mem hn1
        have hflen2 : 2 ≤ (s.attached.filter (fun x => x.id != line.id)).length := by omega
        refine ⟨nodup_map_id_filter _ _ _ hn1, ?_, ?_, ?_, Or.inr ⟨hflen2, ?_⟩⟩
        · simp only [hsome]
          exact nodup_map_id_filter _ _ _ hn2
        · intro w hw
          simp only [hsome] at hw
          exact hb1 w (List.mem_of_mem_filter hw)
        · intro p hp
          exact hb2 p (List.mem_of_mem_filter hp)
        · refine ⟨{ A with ends := A.ends.filter (fun x => some x != some uL.id) },
            rfl, hkind, hbound, ?_, ?_⟩
          · simp only [hends, hsome]
            exact map_filter_swap UEnd.id (fun x => x != uL.id) s.uends
          · simp only [hsome]
            exact forall2_filter_pair A.id s.ifaceSubject uL.id line.id s.attached s.uends
              hrel hn1 hn2 line hline_mem rfl hendL

lemma good_init (ifc n0 : Nat) : GoodAsm (asm_init ifc n0) := by
  refine ⟨by simp [asm_init], by simp [asm_init], by simp [asm_init], by simp [asm_init],
    Or.inl ⟨by simp [asm_init], rfl, rfl, by simp [asm_init]⟩⟩

lemma asmReach_good (s : AsmState) (h : AsmReach s) : GoodAsm s := by
  induction h with
  | init ifc n0 => exact good_init ifc n0
  | step s op hr hv ih =>
    cases op with
    | connect e c => exact good_connect s e c ih hv
    | disconnect e => exact good_disconnect s e ih

/-- C5.  On the second attachment to the interface, `connect` creates exactly
one shared UML Connector of kind "assembly" carrying one connector-end per
attached edge, each end's role being the interface's subject and its
`partWithPort` a newly created (fresh-id) Port owned by that edge's
component; on a third or later attachment the existing shared connector is
reused — the connector list is unchanged — and exactly one new end is
created, for the new edge. -/
theorem connect_shares_assembly (s : AsmState) (eid cid : Nat) (hr : AsmReach s)
    (hv : ∀ a ∈ s.attached, a.id ≠ eid) :
    (s.attached.length = 1 →
      s.connectors = []
      ∧ ∃ A, (asm_connect s eid cid).connectors = [A]
          ∧ A.kind = "assembly"
          ∧ A.ends.length = 2
          ∧ (asm_connect s eid cid).uends.length = 2
          ∧ A.ends = (asm_connect s eid cid).uends.map UEnd.id
          ∧ List.Forall₂ (fun e u => e.subject = some A.id ∧ e.endId = some u.id
              ∧ u.role = s.ifaceSubject
              ∧ (e.comp, u.partWithPort) ∈ (asm_connect s eid cid).ownedPorts
              ∧ s.nextId ≤ u.partWithPort)
            (asm_connect s eid cid).attached (asm_connect s eid cid).uends)
  ∧ (2 ≤ s.attached.length →
      (asm_connect s eid cid).connectors.map UConnector.id = s.connectors.map UConnector.id
      ∧ (asm_connect s eid cid).connectors.length = s.connectors.length
      ∧ ∃ w, (asm_connect s eid cid).uends = s.uends ++ [w]
          ∧ w.role = s.ifaceSubject ∧ s.nextId ≤ w.partWithPort
          ∧ (cid, w.partWithPort) ∈ (asm_connect s eid cid).ownedPorts) := by
  obtain ⟨hn1, hn2, hb1, hb2, hcase⟩ := asmReach_good s hr
  constructor
  · intro h1
    rcases hcase with ⟨hlen, hconn, hue, hclean⟩ | ⟨hlen, A, hA⟩
    · obtain ⟨e1, he1⟩ : ∃ e1, s.attached = [e1] := by
        cases hatt : s.attached with
        | nil => rw [hatt] at h1; simp at h1
        | cons x t =>
          rw [hatt] at h1
          simp only [List.length_cons, Nat.add_left_eq_self] at h1
          exact ⟨x, by rw [List.eq_nil_of_length_eq_zero h1]⟩
      have hsub := (hclean e1 (by rw [he1]; simp)).1
      have hne := hv e1 (by rw [he1]; simp)
      rw [asm_connect_one s eid cid e1 he1 hsub hconn hne]
      refine ⟨hconn, { id := s.nextId, kind := "assembly", ends := [s.nextId+1, s.nextId+3] },
        rfl, rfl, rfl, by rw [hue]; rfl, by rw [hue]; rfl, ?_⟩
      rw [hue]
      simp only [List.nil_append]
      refine List.Forall₂.cons ⟨rfl, rfl, rfl, by simp, by dsimp only; omega⟩
        (List.Forall₂.cons ⟨rfl, rfl, rfl, by simp, by dsimp only; omega⟩ List.Forall₂.nil)
    · omega
  · intro h2
    rcases hcase with ⟨hlen, hconn, hue, hclean⟩ | ⟨hlen, A, hA⟩
    · omega
    · rw [asm_connect_grouped s eid cid A hA hv hlen]
      refine ⟨by simp [hA.1], by simp [hA.1],
        { id := s.nextId, role := s.ifaceSubject, partWithPort := s.nextId + 1 },
        rfl, rfl, by dsimp only; omega, by simp⟩

/-- Witness for C5: on the concrete one-edge state, attaching edge 2 creates
the single shared assembly connector with two ends. -/
theorem connect_shares_assembly_witness :
    asmT1.attached.length = 1
    ∧ (∀ a ∈ asmT1.attached, a.id ≠ 2)
    ∧ (asm_connect asmT1 2 20).connectors.length = 1
    ∧ (asm_connect asmT1 2 20).uends.length = 2 := by
  refine ⟨by decide, by decide, ?_⟩
  obtain ⟨hc0, A, hA, hkind, hAlen, hulen, hrest⟩ :=
    (connect_shares_assembly asmT1 2 20
      (AsmReach.step _ _ (AsmReach.init 100 0) (by decide)) (by decide)).1 (by decide)
  rw [hA]
  exact ⟨rfl, hulen⟩

/-- C6.  Disconnecting one of exactly two attached connector edges unlinks
the shared assembly connector and both of its ends; disconnecting one of
three or more detaches only that edge's end, leaving the shared connector
(same id and kind) and the remaining ends intact; and in every reachable
state — hence after every connect or disconnect — a shared assembly
connector exists if and only if at least two connector edges are attached. -/
theorem disconnect_dissolves_or_detaches (s : AsmState) (hr : AsmReach s) :
    (∀ e ∈ s.attached, s.attached.length = 2 →
        (asm_disconnect s e.id).connectors = []
        ∧ (asm_disconnect s e.id).uends = []
        ∧ (asm_disconnect s e.id).attached.length = 1)
  ∧ (∀ e ∈ s.attached, 3 ≤ s.attached.length →
        ∃ A A' uid, s.connectors = [A]
          ∧ (asm_disconnect s e.id).connectors = [A']
          ∧ A'.id = A.id ∧ A'.kind = A.kind ∧ e.endId = some uid
          ∧ A'.ends = A.ends.filter (fun x => x != uid)
          ∧ (asm_disconnect s e.id).uends = s.uends.filter (fun u => u.id != uid)
          ∧ (asm_disconnect s e.id).attached.length + 1 = s.attached.length)
  ∧ (s.connectors ≠ [] ↔ 2 ≤ s.attached.length) := by
  obtain ⟨hn1, hn2, hb1, hb2, hcase⟩ := asmReach_good s hr
  refine ⟨?_, ?_, ?_⟩
  · intro e he h2
    rcases hcase with ⟨hlen, hconn, hue, hclean⟩ | ⟨hlen, A, hA⟩
    · omega
    · obtain ⟨hconn, hkind, hbound, hends, hrel⟩ := hA
      obtain ⟨a, b, hab_eq⟩ := List.length_eq_two.1 h2
      rw [hab_eq] at hrel
      obtain ⟨u, urest, hpa, hrest, huends⟩ := List.forall₂_cons_left_iff.1 hrel
      obtain ⟨v, vrest, hpb, hvrest, hurest⟩ := List.forall₂_cons_left_iff.1 hrest
      have hvnil : vrest = [] := by
        cases hvrest
        rfl
      subst hvnil
      subst hurest
      have hue2 : s.uends = [u, v] := huends
      have hab : a.id ≠ b.id := by
        rw [hab_eq] at hn1
        simpa using hn1
      have huv : u.id ≠ v.id := by
        rw [hue2] at hn2
        simpa using hn2
      have hmem2 : e = a ∨ e = b := by
        rw [hab_eq] at he
        simpa using he
      rcases hmem2 with h | h
      · subst h
        rw [asm_disconnect_two_a s e b A u v hab_eq hconn hue2 hpa hpb hab huv]
        exact ⟨rfl, rfl, rfl⟩
      · subst h
        rw [asm_disconnect_two_b s a e A u v hab_eq hconn hue2 hpa hpb hab huv]
        exact ⟨rfl, rfl, rfl⟩
  · intro e he h3
    rcases hcase with ⟨hlen, hconn, hue, hclean⟩ | ⟨hlen, A, hA⟩
    · omega
    · obtain ⟨hconn, hkind, hbound, hends, hrel⟩ := hA
      obtain ⟨uL, huL, hrL⟩ := forall2_exists_right hrel he
      have hendL : e.endId = some uL.id := hrL.2.1
      have h2ne : s.attached.length ≠ 2 := by omega
      rw [asm_disconnect_many s A e uL.id ⟨hconn, hkind, hbound, hends, hrel⟩
        hn1 he hendL h2ne]
      have hsome : ∀ x y : Nat, (some x != some y) = (x != y) := fun x y => rfl
      refine ⟨A, { A with ends := A.ends.filter (fun x => some x != some uL.id) }, uL.id,
        hconn, rfl, rfl, rfl, hendL, by simp only [hsome], by simp only [hsome], ?_⟩
      exact length_filter_remove AEdge.id s.attached e he hn1
  · rcases hcase with ⟨hlen, hconn, hue, hclean⟩ | ⟨hlen, A, hA⟩
    · rw [hconn]
      simp
      omega
    · rw [hA.1]
      simp [hlen]

/-- Witness for C6: disconnecting edge 1 of the concrete two-edge state
dissolves the shared connector and both ends. -/
theorem disconnect_dissolves_witness :
    asmE1 ∈ asmT2.attached ∧ asmT2.attached.length = 2
    ∧ (asm_disconnect asmT2 asmE1.id).connectors = []
    ∧ (asm_disconnect asmT2 asmE1.id).uends = [] := by
  refine ⟨by decide, by decide, ?_⟩
  have h := (disconnect_dissolves_or_detaches asmT2
    (AsmReach.step _ _ (AsmReach.step _ _ (AsmReach.init 100 0) (by decide))
      (by decide))).1 asmE1 (by decide) (by decide)
  exact ⟨h.1, h.2.1⟩

/-- C7.  Folding on first connect: when a connector attaches through a port
with no declared role (all four ports role-less, as on a freshly folded
interface), the interface switches to assembly display, the attachment port
and the port two positions away receive the mutually exclusive provided and
required roles — provided on the attachment side unless the interface's
subject is in the connecting component's required set, in which case the
assignment is swapped — and the other two ports become non-connectable.
Unfolding on last disconnect, for every interface state (in particular the
folded ones whose ports do hold roles): the interface reverts to the plain
(single role, non-assembly) folded-provided display and all four ports
become connectable with both the provided and required roles cleared. -/
theorem fold_unfold_ports (s : IfaceState) (idx : Fin 4) (component : Option CompSubj) :
    ((∀ i, (s.ports i).provided = false ∧ (s.ports i).required = false) →
      (iface_connect s idx component).folded = FoldedState.fAssembly
      ∧ (if swapCond component s.subject then
          ((iface_connect s idx component).ports (idx + 2)).provided = true
          ∧ ((iface_connect s idx component).ports (idx + 2)).required = false
          ∧ ((iface_connect s idx component).ports idx).required = true
          ∧ ((iface_connect s idx component).ports idx).provided = false
        else
          ((iface_connect s idx component).ports idx).provided = true
          ∧ ((iface_connect s idx component).ports idx).required = false
          ∧ ((iface_connect s idx component).ports (idx + 2)).required = true
          ∧ ((iface_connect s idx component).ports (idx + 2)).provided = false)
      ∧ ((iface_connect s idx component).ports (idx + 1)).connectable = false
      ∧ ((iface_connect s idx component).ports (idx + 3)).connectable = false)
  ∧ ((iface_disconnect s 1).folded = FoldedState.fProvided
      ∧ (iface_disconnect s 1).folded ≠ FoldedState.fAssembly
      ∧ ∀ i, ((iface_disconnect s 1).ports i).connectable = true
          ∧ ((iface_disconnect s 1).ports i).provided = false
          ∧ ((iface_disconnect s 1).ports i).required = false) := by
  have h20 : idx + 2 ≠ idx := by
    revert idx
    decide
  have h02 : idx ≠ idx + 2 := fun h => h20 h.symm
  have h12 : idx + 1 ≠ idx + 2 := by
    revert idx
    decide
  have h10 : idx + 1 ≠ idx := by
    revert idx
    decide
  have h31 : idx + 3 ≠ idx + 1 := by
    revert idx
    decide
  have h32 : idx + 3 ≠ idx + 2 := by
    revert idx
    decide
  have h30 : idx + 3 ≠ idx := by
    revert idx
    decide
  constructor
  · intro hroleless
    have hcondition : ¬ (s.ports idx).provided ∧ ¬ (s.ports idx).required := by
      have h := hroleless idx
      simp [h.1, h.2]
    cases hsw : swapCond component s.subject with
    | true =>
      simp only [hsw, if_true]
      refine ⟨?_, ⟨?_, ?_, ?_, ?_⟩, ?_, ?_⟩ <;>
        simp [iface_connect, hsw, hcondition, Function.update_noteq, Function.update_same,
          h20, h02, h12, h10, h31, h32, h30, setProvided, setRequired, setNonConnectable,
          (hroleless idx).1, (hroleless idx).2, (hroleless (idx + 2)).1, (hroleless (idx + 2)).2]
    | false =>
      simp only [hsw, Bool.false_eq_true, if_false]
      refine ⟨?_, ⟨?_, ?_, ?_, ?_⟩, ?_, ?_⟩ <;>
        simp [iface_connect, hsw, hcondition, Function.update_noteq, Function.update_same,
          h20, h02, h12, h10, h31, h32, h30, setProvided, setRequired, setNonConnectable,
          (hroleless idx).1, (hroleless idx).2, (hroleless (idx + 2)).1, (hroleless (idx + 2)).2]
  · refine ⟨by simp [iface_disconnect], by simp [iface_disconnect], ?_⟩
    intro i
    simp [iface_disconnect, resetPort]

/-- Witness for C7: folding a pristine interface through port 0, then
disconnecting the last connector of the folded state `foldedIface` — a state
whose ports 0 and 2 actually hold the provided/required roles — which clears
both roles on all four ports and leaves the folded-provided display. -/
theorem fold_unfold_ports_witness :
    (∀ i, (pristineIface.ports i).provided = false ∧ (pristineIface.ports i).required = false)
    ∧ (iface_connect pristineIface 0 none).folded = FoldedState.fAssembly
    ∧ ((iface_connect pristineIface 0 none).ports 0).provided = true
    ∧ ((iface_connect pristineIface 0 none).ports 2).required = true
    ∧ ((iface_connect pristineIface 0 none).ports 1).connectable = false
    ∧ (foldedIface.ports 0).provided = true
    ∧ (foldedIface.ports 2).required = true
    ∧ (iface_disconnect foldedIface 1).folded = FoldedState.fProvided
    ∧ (∀ i, ((iface_disconnect foldedIface 1).ports i).connectable = true
        ∧ ((iface_disconnect foldedIface 1).ports i).provided = false
        ∧ ((iface_disconnect foldedIface 1).ports i).required = false) := by
  have h := (fold_unfold_ports pristineIface 0 none).1 (by decide)
  have h2 := (fold_unfold_ports foldedIface 0 none).2
  refine ⟨by decide, h.1, ?_, ?_, ?_, by decide, by decide, h2.1, h2.2.2⟩
  · have h3 := h.2.1
    rw [if_neg (by decide)] at h3
    exact h3.1
  · have h3 := h.2.1
    rw [if_neg (by decide)] at h3
    exact h3.2.2.1
  · exact h.2.2.1

/-- Counterexample for C8: gluing a connector to an interface item while the
opposite handle is still unattached succeeds, although it is not the case
that exactly one endpoint is a component-like item and the other an
interface-like item (the other endpoint is nothing at all). -/
theorem glue_unattached_counterexample :
    connectorBase_glue (GItem.iface 7) none rolelessPort rolelessPort = true
    ∧ ¬ exactlyOneCompOneIface (GItem.iface 7) none := by
  constructor
  · rfl
  · intro h
    rcases h with ⟨h1, h2⟩ | ⟨h1, h2⟩ <;> simp [isCompI, isIfaceI] at h1 h2

/-- C8 as amended.  The assembly glue check rejects component-to-component
and interface-to-interface endpoint pairs (when the opposite endpoint is
unattached it passes with only one endpoint present), and when the checked
port declares exactly one of the provided/required roles and both endpoints
are attached, it succeeds only on the matching side: for a provided port
only if the interface's subject is in the component's provided set, for a
required port only if it is in the component's required set. -/
theorem glue_rejects_mismatch (element : GItem) (opp : Option GItem)
    (candPort oppPort : IfPort) :
    (connectorBase_glue element opp candPort oppPort = true →
        ¬ (isCompI (some element) = true ∧ isCompI opp = true)
        ∧ ¬ (isIfaceI (some element) = true ∧ isIfaceI opp = true))
  ∧ (∀ isubj c, element = GItem.iface isubj → opp = some (GItem.comp c) →
        connectorBase_glue element opp candPort oppPort = true →
        (candPort.provided = true → candPort.required = false →
          c.provided.contains isubj = true)
        ∧ (candPort.required = true → candPort.provided = false →
          c.required.contains isubj = true))
  ∧ (∀ isubj c, element = GItem.comp c → opp = some (GItem.iface isubj) →
        connectorBase_glue element opp candPort oppPort = true →
        (oppPort.provided = true → oppPort.required = false →
          c.provided.contains isubj = true)
        ∧ (oppPort.required = true → oppPort.provided = false →
          c.required.contains isubj = true)) := by
  refine ⟨?_, ?_, ?_⟩
  · intro h
    constructor
    · rintro ⟨h1, h2⟩
      rcases element with c | isubj <;> rcases opp with _ | it
      · simp [isCompI] at h2
      · rcases it with c2 | i2
        · simp [connectorBase_glue, isCompI, isIfaceI] at h
        · simp [isCompI] at h2
      · simp [isCompI] at h1
      · simp [isCompI] at h1
    · rintro ⟨h1, h2⟩
      rcases element with c | isubj <;> rcases opp with _ | it
      · simp [isIfaceI] at h1
      · simp [isIfaceI] at h1
      · simp [isIfaceI] at h2
      · rcases it with c2 | i2
        · simp [isIfaceI] at h2
        · simp [connectorBase_glue, isCompI, isIfaceI] at h
  · rintro isubj c rfl rfl h
    simp only [connectorBase_glue, isCompI, isIfaceI] at h
    constructor
    · intro hp hr
      simp [hp, hr] at h
      simpa using h
    · intro hr hp
      simp [hp, hr] at h
      simpa using h
  · rintro isubj c rfl rfl h
    simp only [connectorBase_glue, isCompI, isIfaceI] at h
    constructor
    · intro hp hr
      simp [hp, hr] at h
      simpa using h
    · intro hr hp
      simp [hp, hr] at h
      simpa using h

/-- Witness for C8 (amended): a provided-side port on a folded interface,
with the opposite end on a component that provides the interface. -/
theorem glue_rejects_mismatch_witness :
    connectorBase_glue (GItem.iface 7) (some (GItem.comp { provided := [7], required := [] }))
        { provided := true, required := false, connectable := true, angle := 0 } rolelessPort
      = true
    ∧ ({ provided := [7], required := [] } : CompSubj).provided.contains 7 = true := by
  refine ⟨by decide, ?_⟩
  exact ((glue_rejects_mismatch (GItem.iface 7)
      (some (GItem.comp { provided := [7], required := [] }))
      { provided := true, required := false, connectable := true, angle := 0 }
      rolelessPort).2.1 7 { provided := [7], required := [] } rfl rfl (by decide)).1 rfl rfl

/-- C10.  Gluing a connector to an interface item succeeds only if the
interface is in a folded state (`folded != FOLDED_NONE`) and every item
currently connected to it is itself a connector edge; an unfolded
interface, or a folded one with a non-connector item attached, is
rejected. -/
theorem iface_glue_folded_connectors_only (ifaceSubj : Nat) (folded : FoldedState)
    (opp : Option GItem) (candPort oppPort : IfPort) (connected : List CKind)
    (h : interfaceConnector_glue ifaceSubj folded opp candPort oppPort connected = true) :
    folded ≠ FoldedState.fNone ∧ ∀ d ∈ connected, d = CKind.connectorItem := by
  unfold interfaceConnector_glue at h
  by_cases hg : (connectorBase_glue (GItem.iface ifaceSubj) opp candPort oppPort
      && !(folded == FoldedState.fNone)) = true
  · rw [if_pos hg] at h
    constructor
    · intro hf
      subst hf
      simp at hg
    · intro d hd
      have h2 : ∀ a ∈ connected, a = CKind.connectorItem := by simpa using h
      exact h2 d hd
  · rw [if_neg hg] at h
    exact absurd h hg

/-- Witness for C10: a folded interface with one connector attached accepts
a further connector. -/
theorem iface_glue_folded_connectors_only_witness :
    interfaceConnector_glue 5 FoldedState.fProvided none rolelessPort rolelessPort
        [CKind.connectorItem] = true
    ∧ FoldedState.fProvided ≠ FoldedState.fNone := by
  refine ⟨by decide, ?_⟩
  exact (iface_glue_folded_connectors_only 5 FoldedState.fProvided none rolelessPort
    rolelessPort [CKind.connectorItem] (by decide)).1

/-- C9, evaluation of the code: every call of `_get_interfaces` raises
`NameError: name 'operator' is not defined` (the module lacks
`import operator`), instead of returning the intersection of the provided
and required sets sorted by name as the claim states. -/
theorem get_interfaces_raises (c1 c2 : CompIfSubj) :
    get_interfaces c1 c2 = PyResult.nameError "operator" := rfl

/-- C4.  `glue` is pure for every adapter and every handle/port input: the
state each glue reads is returned unchanged (no observable mutation of the
semantic graph, the diagram items or the port state), and calling it again
on the state left by a previous call returns the same boolean. -/
theorem glue_is_pure :
    (∀ hh sg (s : FJState), (flowConnect_glue hh sg s).2 = s
        ∧ (flowConnect_glue hh sg ((flowConnect_glue hh sg s).2)).1
            = (flowConnect_glue hh sg s).1)
  ∧ (∀ hh os sg (s : FJState), (flowForkDecision_glue hh os sg s).2 = s
        ∧ (flowForkDecision_glue hh os sg ((flowForkDecision_glue hh os sg s).2)).1
            = (flowForkDecision_glue hh os sg s).1)
  ∧ (∀ el opp cp op (w : AsmState), (connectorBase_glueSt el opp cp op w).2 = w
        ∧ (connectorBase_glueSt el opp cp op ((connectorBase_glueSt el opp cp op w).2)).1
            = (connectorBase_glueSt el opp cp op w).1)
  ∧ (∀ ifs (a : AsmState) opp cp op conn,
        (interfaceConnector_glueSt ifs a opp cp op conn).2 = (ifs, a)
        ∧ (interfaceConnector_glueSt ifs a opp cp op conn).1
            = (interfaceConnector_glueSt ifs a opp cp op conn).1) := by
  refine ⟨?_, ?_, ?_, ?_⟩
  · intro hh sg s
    have h2 : (flowConnect_glue hh sg s).2 = s := by
      unfold flowConnect_glue
      split <;> rfl
    exact ⟨h2, by rw [h2]⟩
  · intro hh os sg s
    have h2 : (flowForkDecision_glue hh os sg s).2 = s := by
      unfold flowForkDecision_glue flowConnect_glue
      split
      · rfl
      · split <;> rfl
    exact ⟨h2, by rw [h2]⟩
  · intro el opp cp op w
    exact ⟨rfl, rfl⟩
  · intro ifs a opp cp op conn
    exact ⟨rfl, rfl⟩

end Gaphor
